import Mathlib

/-!
Shallow embedding of the fastapi-mcp documentation pipeline.

Strings are modelled as `List Char`.  The definitions below are direct
translations of the Python sources:
  * `FastapiMcp.extract_tags`            — src/src/document_processor.py, `FastAPIDocumentProcessor.extract_tags`
  * `FastapiMcp.process_markdown_file`   — src/src/document_processor.py, `FastAPIDocumentProcessor.process_markdown_file`
    (the markdown-to-HTML rendering and `soup.find_all` walk is abstracted as an
    input stream of block-level nodes, exactly the `h1..h6 / p / pre / ul / ol`
    elements the code iterates over)
  * `FastapiMcp.extract_documents`       — src/src/document_fetcher.py, `FastAPIDocumentFetcher.extract_documents`
  * `FastapiMcp.get_fastapi_doc_by_id`, `FastapiMcp.search_fastapi_docs`
                                         — src/fastapi-mcp-server/src/mcp_server.py
  * `FastapiMcp.ElasticsearchEngine.*`   — src/fastapi-mcp-server/src/search_engine.py
  * `FastapiMcp.load_data`               — src/fastapi-mcp-server/src/data_loader.py
  * `FastapiMcp.Mono.*`                  — src/fastapi-mcp-server/fastapi_mcp_server.py (the monolithic duplicate)
-/

namespace FastapiMcp

/-- Python strings, modelled as lists of characters. -/
abbrev Str := List Char

/-- Python `str.lower()` (per character). -/
def lowerStr (s : Str) : Str := s.map Char.toLower

/-- Characters stripped by Python `str.strip()` / matched by the regex class `\s`. -/
def isPySpace (c : Char) : Bool :=
  c = ' ' || c = '\t' || c = '\n' || c = '\r' || c = '\x0b' || c = '\x0c'

/-- Python `str.strip()`: remove leading and trailing whitespace. -/
def pyStrip (s : Str) : Str :=
  ((s.dropWhile isPySpace).reverse.dropWhile isPySpace).reverse

/-- The regex class `\w` (ASCII): letters, digits, underscore. -/
def isWordChar (c : Char) : Bool := c.isAlpha || c.isDigit || c = '_'

/-- Python `pat in s` / `re.search` of a literal pattern: substring occurrence. -/
def containsSub (pat : Str) : Str → Bool
  | [] => pat.isEmpty
  | c :: rest => pat.isPrefixOf (c :: rest) || containsSub pat rest

/-- A regex word boundary `\b` holds against the adjacent character (none at the
string edge): the neighbour must not be a word character (the pattern words
themselves consist only of word characters). -/
def boundaryOk : Option Char → Bool
  | none => true
  | some c => !(isWordChar c)

/-- `\b w \b` matches at the current position, given the previous character. -/
def wordAtHere (w s : Str) (prev : Option Char) : Bool :=
  boundaryOk prev && w.isPrefixOf s && boundaryOk (s.drop w.length).head?

/-- Scan for a `\b w \b` match, threading the previous character. -/
def searchWordFrom (w : Str) : Option Char → Str → Bool
  | prev, [] => wordAtHere w [] prev
  | prev, c :: rest => wordAtHere w (c :: rest) prev || searchWordFrom w (some c) rest

/-- `re.search(r"\b w \b", s)` for a word `w` of word characters. -/
def searchWord (w s : Str) : Bool := searchWordFrom w none s

/-- Find `b` at or after the current position with no newline before it
(the regex `.` does not match a newline). -/
def searchFromNoNl (b : Str) : Str → Bool
  | [] => b.isEmpty
  | c :: rest => b.isPrefixOf (c :: rest) || (c != '\n' && searchFromNoNl b rest)

/-- `re.search(r"a.*b", s)`: an occurrence of `a`, then `b`, with no newline in
the gap. -/
def searchGap (a b : Str) : Str → Bool
  | [] => a.isEmpty && b.isEmpty
  | c :: rest =>
      (a.isPrefixOf (c :: rest) && searchFromNoNl b ((c :: rest).drop a.length)) ||
      searchGap a b rest

/-- The pattern forms appearing in the `tag_patterns` table of
`FastAPIDocumentProcessor.extract_tags`. -/
inductive Pat
  | lit (p : Str)
  | word (w : Str)
  | wordAlt (ws : List Str)
  | gap (a b : Str)

/-- `re.search(pattern, s)` for the pattern forms used by the tag table. -/
def Pat.search (s : Str) : Pat → Bool
  | .lit p => containsSub p s
  | .word w => searchWord w s
  | .wordAlt ws => ws.any (fun w => searchWord w s)
  | .gap a b => searchGap a b s

/-- The `tag_patterns` table of `FastAPIDocumentProcessor.extract_tags`
(src/src/document_processor.py lines 76-92), in source order. -/
def tag_patterns : List (Str × List Pat) :=
  [ ("api".data, [.lit "@app.".data, .lit "router".data, .lit "endpoint".data, .lit "path".data]),
    ("http-methods".data, [.wordAlt ["get".data, "post".data, "put".data, "delete".data, "patch".data]]),
    ("pydantic".data, [.lit "pydantic".data, .lit "basemodel".data]),
    ("async".data, [.word "async".data, .word "await".data]),
    ("dependencies".data, [.lit "dependency".data, .lit "depends".data]),
    ("security".data, [.lit "security".data, .word "auth".data]),
    ("database".data, [.lit "database".data, .word "sql".data]),
    ("testing".data, [.word "test".data]),
    ("deployment".data, [.lit "deploy".data, .lit "docker".data]),
    ("validation".data, [.lit "validat".data, .lit "schema".data]),
    ("middleware".data, [.lit "middleware".data]),
    ("cors".data, [.word "cors".data]),
    ("websocket".data, [.lit "websocket".data]),
    ("background-tasks".data, [.gap "background".data "task".data]),
    ("file-upload".data, [.gap "file".data "upload".data, .lit "uploadfile".data]) ]

/-- `re.sub(r"[^\w\s-]", "", section_lower).replace(" ", "-")`: strip characters
outside word/whitespace/hyphen, then replace every space character with a
hyphen.  Input is the already lower-cased section. -/
def sectionTagOf (section_lower : Str) : Str :=
  (section_lower.filter (fun c => isWordChar c || isPySpace c || c = '-')).map
    (fun c => if c = ' ' then '-' else c)

/-- `FastAPIDocumentProcessor.extract_tags` (src/src/document_processor.py
lines 69-104): pattern tags in table order, then the section tag, deduplicated
(`list(set(tags))` — the result is treated as a set). -/
def extract_tags (content sec : Str) : List Str :=
  let content_lower := lowerStr content
  let section_lower := lowerStr sec
  let tags := (tag_patterns.filter (fun tp => tp.2.any (Pat.search content_lower))).map Prod.fst
  let tags :=
    if section_lower.isEmpty then tags
    else
      let section_tag := sectionTagOf section_lower
      if section_tag.isEmpty then tags else tags ++ [section_tag]
  tags.dedup

/-- Decimal rendering helper (fuel-structured so the kernel can evaluate it);
`natToDecAux fuel n` is the decimal digits of `n` when `n ≤ fuel`. -/
def natToDecAux : Nat → Nat → Str
  | 0, _ => []
  | fuel + 1, n =>
      if n = 0 then [] else natToDecAux fuel (n / 10) ++ [Nat.digitChar (n % 10)]

/-- Python `f"{n}"` for a natural number: standard decimal notation. -/
def natToDec (n : Nat) : Str := if n = 0 then ['0'] else natToDecAux n n

/-- `f"{stem}#{n}"`: the chunk id built at
src/src/document_processor.py line 50. -/
def chunkId (stem : Str) (n : Nat) : Str := stem ++ '#' :: natToDec n

/-- The four non-heading block kinds the chunker walk selects
(`p`, `pre`, `ul`, `ol`). -/
inductive BlockKind
  | p | pre | ul | ol
deriving DecidableEq

/-- One block-level node of the rendered document, as produced by
`soup.find_all(["h1", ..., "h6", "p", "pre", "ul", "ol"])`:
either a heading `h<level>` or a content node, with its flattened
`get_text()` (un-stripped). -/
inductive Block
  | heading (level : Nat) (text : Str)
  | content (kind : BlockKind) (text : Str)
deriving DecidableEq

/-- The `DocumentChunk` record (src/src/interfaces.py / pydantic model). -/
structure DocumentChunk where
  id : Str
  title : Str
  content : Str
  url : Str
  sec : Str
  subsec : Str
  tags : List Str
  embedding_text : Str
deriving DecidableEq

/-- The loop state of `process_markdown_file`: accumulated chunks plus the
heading-tracking variables `current_section` / `current_subsection`. -/
structure ChunkState where
  chunks : List DocumentChunk
  current_section : Str
  current_subsection : Str

/-- Python `a or b` on strings: first non-empty. -/
def pyOr (a b : Str) : Str := if a.isEmpty then b else a

/-- The `DocumentChunk(...)` record built at src/src/document_processor.py
lines 55-64 for a qualifying content block with stripped text `text_content`. -/
def emittedChunk (stem base_url : Str) (st : ChunkState) (text_content : Str) : DocumentChunk :=
  { id := chunkId stem st.chunks.length
    title := pyOr st.current_subsection (pyOr st.current_section stem)
    content := text_content
    url := base_url
    sec := st.current_section
    subsec := st.current_subsection
    tags := extract_tags text_content st.current_section
    embedding_text :=
      st.current_section ++ ' ' :: st.current_subsection ++ ' ' :: text_content }

/-- One iteration of the `for element in soup.find_all(...)` loop of
`FastAPIDocumentProcessor.process_markdown_file`
(src/src/document_processor.py lines 38-65). -/
def processBlock (stem base_url : Str) (st : ChunkState) (b : Block) : ChunkState :=
  match b with
  | .heading level text =>
      if level ≤ 2 then
        { st with current_section := pyStrip text, current_subsection := [] }
      else if level ≤ 4 then
        { st with current_subsection := pyStrip text }
      else st
  | .content _ text =>
      let text_content := pyStrip text
      if 50 < text_content.length then
        { st with chunks := st.chunks ++ [emittedChunk stem base_url st text_content] }
      else st

/-- `FastAPIDocumentProcessor.process_markdown_file` on an already-rendered
block stream: fold the loop body over the blocks starting from empty state and
return the accumulated chunks. -/
def process_markdown_file (stem base_url : Str) (blocks : List Block) : List DocumentChunk :=
  (blocks.foldl (processBlock stem base_url) ⟨[], [], []⟩).chunks

/-- One input file of an extraction run, reduced to what
`extract_documents` consumes: `.ok (stem, base_url, blocks)` for a file whose
read/render/chunk succeeds, `.error msg` for a file whose processing raises. -/
abbrev FileInput := Except Str (Str × Str × List Block)

/-- `FastAPIDocumentFetcher.extract_documents`
(src/src/document_fetcher.py lines 49-72): walk the files in order; a raising
file is caught and skipped; a successful file's chunks are appended when
non-empty (`if content: docs.extend(content)`). -/
def extract_documents (files : List FileInput) : List DocumentChunk :=
  files.foldl
    (fun docs f =>
      match f with
      | .error _ => docs
      | .ok (stem, base_url, blocks) =>
          let content := process_markdown_file stem base_url blocks
          if content.isEmpty then docs else docs ++ content)
    []

/-- The successfully processed files of a run, in walk order. -/
def okFiles (files : List FileInput) : List (Str × Str × List Block) :=
  files.filterMap (fun f => match f with | .ok t => some t | .error _ => none)

/-- The stems of the successfully processed files of a run. -/
def okStems (files : List FileInput) : List Str :=
  (okFiles files).map (fun t => t.1)

namespace Mono

/-- `FastAPIDocsFetcher._extract_tags` of the monolithic entry point
(src/fastapi-mcp-server/fastapi_mcp_server.py lines 143-173): plain substring
tests (`word in content_lower`), nine tag categories, and the section tag is
`section_lower.replace(" ", "-")` with no punctuation stripping. -/
def extract_tags (content sec : Str) : List Str :=
  let content_lower := lowerStr content
  let section_lower := lowerStr sec
  let tags : List Str := []
  let tags :=
    if ["@app.".data, "router".data, "endpoint".data, "path".data].any
        (fun w => containsSub w content_lower)
    then tags ++ ["api".data] else tags
  let tags :=
    if ["get".data, "post".data, "put".data, "delete".data, "patch".data].any
        (fun w => containsSub w content_lower)
    then tags ++ ["http-methods".data] else tags
  let tags :=
    if containsSub "pydantic".data content_lower || containsSub "basemodel".data content_lower
    then tags ++ ["pydantic".data] else tags
  let tags :=
    if containsSub "async".data content_lower || containsSub "await".data content_lower
    then tags ++ ["async".data] else tags
  let tags :=
    if containsSub "dependency".data content_lower || containsSub "depends".data content_lower
    then tags ++ ["dependencies".data] else tags
  let tags :=
    if containsSub "security".data content_lower || containsSub "auth".data content_lower
    then tags ++ ["security".data] else tags
  let tags :=
    if containsSub "database".data content_lower || containsSub "sql".data content_lower
    then tags ++ ["database".data] else tags
  let tags :=
    if containsSub "test".data content_lower then tags ++ ["testing".data] else tags
  let tags :=
    if containsSub "deploy".data content_lower || containsSub "docker".data content_lower
    then tags ++ ["deployment".data] else tags
  let tags :=
    if section_lower.isEmpty then tags
    else tags ++ [section_lower.map (fun c => if c = ' ' then '-' else c)]
  tags.dedup

/-- One iteration of the block loop of `FastAPIDocsFetcher._process_markdown_file`
(src/fastapi-mcp-server/fastapi_mcp_server.py lines 111-139): identical
structure to the component chunker, but the chunk id uses the file's relative
path (`f"{rel_path}#{len(chunks)}"`), the title fallback uses `rel_path.stem`,
and tags come from the monolithic `_extract_tags`. -/
def processBlock (relPath relStem base_url : Str) (st : ChunkState) (b : Block) : ChunkState :=
  match b with
  | .heading level text =>
      if level ≤ 2 then
        { st with current_section := pyStrip text, current_subsection := [] }
      else if level ≤ 4 then
        { st with current_subsection := pyStrip text }
      else st
  | .content _ text =>
      let text_content := pyStrip text
      if 50 < text_content.length then
        let chunk : DocumentChunk :=
          { id := relPath ++ '#' :: natToDec st.chunks.length
            title := pyOr st.current_subsection (pyOr st.current_section relStem)
            content := text_content
            url := base_url
            sec := st.current_section
            subsec := st.current_subsection
            tags := extract_tags text_content st.current_section
            embedding_text :=
              st.current_section ++ ' ' :: st.current_subsection ++ ' ' :: text_content }
        { st with chunks := st.chunks ++ [chunk] }
      else st

/-- `FastAPIDocsFetcher._process_markdown_file` on a rendered block stream. -/
def process_markdown_file (relPath relStem base_url : Str) (blocks : List Block) :
    List DocumentChunk :=
  (blocks.foldl (processBlock relPath relStem base_url) ⟨[], [], []⟩).chunks

end Mono

/-- An apostrophe (used inside the not-found message). -/
def squote : Char := Char.ofNat 39

/-- A document body as returned by Elasticsearch (`response["_source"]`),
modelled as a field map; Python dict truthiness is emptiness of the map. -/
abbrev Doc := List (Str × Str)

/-- Outcome of the underlying `es.get` call: the document's source when the id
exists, a raised `NotFoundError` when absent, or another raised exception. -/
inductive EsGetOutcome
  | found (d : Doc)
  | missing
  | failure (msg : Str)

/-- `ElasticsearchEngine.get_document_by_id`
(src/fastapi-mcp-server/src/search_engine.py lines 123-130): return
`response["_source"]`; any exception (not-found or otherwise) is caught and
`None` is returned. -/
def ElasticsearchEngine.get_document_by_id (es : EsGetOutcome) : Option Doc :=
  match es with
  | .found d => some d
  | .missing => none
  | .failure _ => none

/-- Result of a tool operation as seen by the MCP caller: a document or an
`{error: msg}` dictionary. -/
inductive ToolResult
  | ok (d : Doc)
  | error (msg : Str)
deriving DecidableEq

/-- `f"Document with ID '{doc_id}' not found"`. -/
def notFoundMsg (docId : Str) : Str :=
  "Document with ID ".data ++ squote :: docId ++ squote :: " not found".data

/-- The `get_fastapi_doc_by_id` tool (src/fastapi-mcp-server/src/mcp_server.py
lines 90-109): the engine call's outcome is `.error e` when the engine raises,
otherwise `.ok` of its returned value; `if doc:` is Python truthiness, so both
`None` and an empty dict take the not-found branch. -/
def get_fastapi_doc_by_id (docId : Str) (engine : Except Str (Option Doc)) : ToolResult :=
  match engine with
  | .error e => .error ("Failed to get document: ".data ++ e)
  | .ok (some d) => if d.isEmpty then .error (notFoundMsg docId) else .ok d
  | .ok none => .error (notFoundMsg docId)

/-- The composed get-by-id path of the repository: the tool calling the
Elasticsearch gateway implementation (which never raises). -/
def getByIdPipeline (docId : Str) (es : EsGetOutcome) : ToolResult :=
  get_fastapi_doc_by_id docId (.ok (ElasticsearchEngine.get_document_by_id es))

/-- One Elasticsearch search hit (`response["hits"]["hits"][i]`), with the
source fields the formatting layer reads. -/
structure Hit where
  id : Str
  title : Str
  sec : Str
  subsec : Str
  url : Str
  tags : List Str
  score : Int
  content : Str
  highlight : List (Str × List Str)
deriving DecidableEq

/-- One formatted entry of the search tool's `results` list. -/
structure SearchResultEntry where
  id : Str
  title : Str
  sec : Str
  subsec : Str
  url : Str
  tags : List Str
  score : Int
  content : Str
  highlights : Option (List (Str × List Str))
deriving DecidableEq

/-- Outcome of the underlying `es.search` call. -/
inductive EsSearchOutcome
  | hits (hs : List Hit)
  | failure (msg : Str)

/-- `ElasticsearchEngine.search_documents`
(src/fastapi-mcp-server/src/search_engine.py lines 116-121): return the hit
list; any exception from the backend call is caught and `[]` is returned. -/
def ElasticsearchEngine.search_documents (es : EsSearchOutcome) : List Hit :=
  match es with
  | .hits hs => hs
  | .failure _ => []

/-- The per-hit formatting of the `search_fastapi_docs` tool
(src/fastapi-mcp-server/src/mcp_server.py lines 61-79): truncate content over
500 characters with an ellipsis, attach highlights only when non-empty. -/
def formatHit (h : Hit) : SearchResultEntry :=
  { id := h.id
    title := h.title
    sec := h.sec
    subsec := h.subsec
    url := h.url
    tags := h.tags
    score := h.score
    content :=
      if 500 < h.content.length then h.content.take 500 ++ "...".data else h.content
    highlights := if h.highlight.isEmpty then none else some h.highlight }

/-- Result of the search tool: the `{query, total_results, results}` dictionary
or an `{error: msg}` dictionary. -/
inductive SearchToolResult
  | ok (query : Str) (total_results : Nat) (results : List SearchResultEntry)
  | error (msg : Str)
deriving DecidableEq

/-- The `search_fastapi_docs` tool (src/fastapi-mcp-server/src/mcp_server.py
lines 40-88): the engine call's outcome is `.error e` when the engine raises
(caught and mapped to the search-failed message), otherwise the hits are
formatted into an ordinary result dictionary. -/
def search_fastapi_docs (query : Str) (engine : Except Str (List Hit)) : SearchToolResult :=
  match engine with
  | .error e => .error ("Search failed: ".data ++ e)
  | .ok hits => .ok query hits.length (hits.map formatHit)

/-- The composed search path of the repository: the tool calling the
Elasticsearch gateway implementation (which never raises). -/
def searchPipeline (query : Str) (es : EsSearchOutcome) : SearchToolResult :=
  search_fastapi_docs query (.ok (ElasticsearchEngine.search_documents es))

/-- Which search-engine mutation calls `load_data` performed. -/
structure EngineTrace where
  createIndexCalled : Bool
  indexDocumentsCalled : Bool
deriving DecidableEq

/-- Result dictionary of `FastAPIDataLoader.load_data`. -/
inductive LoadResult
  | success (message : Str) (document_count : Nat)
  | error (msg : Str)
deriving DecidableEq

/-- `FastAPIDataLoader.load_data` (src/fastapi-mcp-server/src/data_loader.py
lines 20-47), with each collaborator call modelled by its outcome
(`.error` = the call raises) and the performed index mutations recorded:
clone, extract, empty-check (before any index call), create_index (destructive
drop-and-recreate), index_documents; any raise is caught and mapped to the
data-loading-failed message. -/
def load_data (clone : Except Str Unit) (extract : Except Str (List DocumentChunk))
    (createIndex : Except Str Unit) (indexDocs : Except Str Unit) :
    LoadResult × EngineTrace :=
  match clone with
  | .error e => (.error ("Data loading failed: ".data ++ e), ⟨false, false⟩)
  | .ok _ =>
    match extract with
    | .error e => (.error ("Data loading failed: ".data ++ e), ⟨false, false⟩)
    | .ok documents =>
      if documents.isEmpty then
        (.error "No documents found in repository".data, ⟨false, false⟩)
      else
        match createIndex with
        | .error e => (.error ("Data loading failed: ".data ++ e), ⟨true, false⟩)
        | .ok _ =>
          match indexDocs with
          | .error e => (.error ("Data loading failed: ".data ++ e), ⟨true, true⟩)
          | .ok _ =>
            (.success
              ("Successfully loaded ".data ++ natToDec documents.length ++
                " documentation chunks".data)
              documents.length,
             ⟨true, true⟩)

/-- Decimal parsing, the inverse of `natToDec`; used only to prove `natToDec`
injective. -/
def decToNat (s : Str) : Nat := s.foldl (fun acc c => acc * 10 + (c.toNat - 48)) 0

/-- Spec-side definition, following the words of the claim about section tags:
lower-case, strip characters outside word-characters/whitespace/hyphen, and
replace each internal whitespace RUN with a single hyphen.  Written only to be
compared against the code's `sectionTagOf`. -/
def collapseWsAux : Bool → Str → Str
  | _, [] => []
  | prevWs, c :: rest =>
      if isPySpace c then
        (if prevWs then collapseWsAux true rest else '-' :: collapseWsAux true rest)
      else c :: collapseWsAux false rest

/-- Spec-side section-tag transform as the claim states it (whitespace runs
collapse to single hyphens). -/
def claimSectionTag (s : Str) : Str :=
  collapseWsAux false
    ((lowerStr s).filter (fun c => isWordChar c || isPySpace c || c = '-'))

/-- Amended spec-side section-tag transform: lower-case, strip characters
outside word/whitespace/hyphen, and replace each space character (not runs,
and only U+0020) with a hyphen.  Written independently of `sectionTagOf`
(single fold) to be proved equal to the code's behaviour. -/
def amendedSectionTag (s : Str) : Str :=
  (lowerStr s).foldr
    (fun c acc =>
      if c = ' ' then '-' :: acc
      else if isWordChar c || isPySpace c || c = '-' then c :: acc
      else acc)
    []

/-! ## Helper lemmas -/

lemma digitChar_toNat {d : Nat} (h : d < 10) : (Nat.digitChar d).toNat = 48 + d := by
  interval_cases d <;> rfl

lemma digitChar_isDigit {d : Nat} (h : d < 10) : (Nat.digitChar d).isDigit = true := by
  interval_cases d <;> rfl

lemma decToNat_append (s : Str) (c : Char) :
    decToNat (s ++ [c]) = decToNat s * 10 + (c.toNat - 48) := by
  simp [decToNat, List.foldl_append]

lemma decToNat_natToDecAux : ∀ fuel n, n ≤ fuel → decToNat (natToDecAux fuel n) = n := by
  intro fuel
  induction fuel with
  | zero =>
    intro n hn
    interval_cases n
    rfl
  | succ fuel ih =>
    intro n hn
    by_cases h0 : n = 0
    · subst h0; rfl
    · have hdiv : n / 10 < n := Nat.div_lt_self (Nat.pos_of_ne_zero h0) (by norm_num)
      rw [natToDecAux, if_neg h0, decToNat_append, ih (n / 10) (by omega),
        digitChar_toNat (Nat.mod_lt n (by norm_num))]
      omega

lemma decToNat_natToDec (n : Nat) : decToNat (natToDec n) = n := by
  by_cases h0 : n = 0
  · subst h0; rfl
  · rw [natToDec, if_neg h0]
    exact decToNat_natToDecAux n n le_rfl

lemma natToDec_injective : Function.Injective natToDec := by
  intro a b h
  have := congrArg decToNat h
  rwa [decToNat_natToDec, decToNat_natToDec] at this

lemma natToDecAux_digits : ∀ fuel n, ∀ c ∈ natToDecAux fuel n, c.isDigit = true := by
  intro fuel
  induction fuel with
  | zero => intro n c hc; simp [natToDecAux] at hc
  | succ fuel ih =>
    intro n c hc
    by_cases h0 : n = 0
    · subst h0; simp [natToDecAux] at hc
    · rw [natToDecAux, if_neg h0] at hc
      rcases List.mem_append.mp hc with hc | hc
      · exact ih _ _ hc
      · rcases List.mem_singleton.mp hc with rfl
        exact digitChar_isDigit (Nat.mod_lt n (by norm_num))

lemma natToDec_digits (n : Nat) : ∀ c ∈ natToDec n, c.isDigit = true := by
  intro c hc
  by_cases h0 : n = 0
  · subst h0; rcases List.mem_singleton.mp hc with rfl; rfl
  · rw [natToDec, if_neg h0] at hc
    exact natToDecAux_digits n n c hc

lemma hash_not_mem_natToDec (n : Nat) : '#' ∉ natToDec n := by
  intro h
  have := natToDec_digits n '#' h
  simp [Char.isDigit] at this

lemma sep_split_first {sep : Char} (a1 a2 : Str) {b1 b2 : Str}
    (h1 : sep ∉ a1) (h2 : sep ∉ a2) (h : a1 ++ sep :: b1 = a2 ++ sep :: b2) :
    a1 = a2 ∧ b1 = b2 := by
  induction a1 generalizing a2 with
  | nil =>
    cases a2 with
    | nil => simpa using h
    | cons c t =>
      simp only [List.nil_append, List.cons_append, List.cons.injEq] at h
      exact absurd (h.1 ▸ List.mem_cons_self c t) h2
  | cons c1 t1 ih =>
    cases a2 with
    | nil =>
      simp only [List.nil_append, List.cons_append, List.cons.injEq] at h
      exact absurd (h.1.symm ▸ List.mem_cons_self c1 t1) h1
    | cons c2 t2 =>
      simp only [List.cons_append, List.cons.injEq] at h
      obtain ⟨rfl, h⟩ := h
      have := ih t2 (fun hm => h1 (List.mem_cons_of_mem _ hm))
        (fun hm => h2 (List.mem_cons_of_mem _ hm)) h
      exact ⟨by rw [this.1], this.2⟩

lemma sep_split_last {sep : Char} (a1 a2 : Str) {b1 b2 : Str}
    (h1 : sep ∉ b1) (h2 : sep ∉ b2) (h : a1 ++ sep :: b1 = a2 ++ sep :: b2) :
    a1 = a2 ∧ b1 = b2 := by
  have h' : b1.reverse ++ sep :: a1.reverse = b2.reverse ++ sep :: a2.reverse := by
    have hr := congrArg List.reverse h
    simpa [List.reverse_append] using hr
  have hsplit := sep_split_first b1.reverse b2.reverse
    (by simpa using h1) (by simpa using h2) h'
  constructor
  · have := congrArg List.reverse hsplit.2
    simpa using this
  · have := congrArg List.reverse hsplit.1
    simpa using this

lemma chunkId_inj {s1 s2 : Str} {n1 n2 : Nat} (h : chunkId s1 n1 = chunkId s2 n2) :
    s1 = s2 ∧ n1 = n2 := by
  have := sep_split_last s1 s2 (hash_not_mem_natToDec n1) (hash_not_mem_natToDec n2) h
  exact ⟨this.1, natToDec_injective this.2⟩

lemma processBlock_heading_chunks (stem base_url : Str) (st : ChunkState)
    (level : Nat) (t : Str) :
    (processBlock stem base_url st (.heading level t)).chunks = st.chunks := by
  by_cases h1 : level ≤ 2 <;> by_cases h2 : level ≤ 4 <;>
    simp [processBlock, h1, h2]

lemma processBlock_content_chunks (stem base_url : Str) (st : ChunkState)
    (k : BlockKind) (t : Str) :
    (processBlock stem base_url st (.content k t)).chunks =
      if 50 < (pyStrip t).length then
        st.chunks ++ [emittedChunk stem base_url st (pyStrip t)]
      else st.chunks := by
  by_cases h : 50 < (pyStrip t).length <;> simp [processBlock, h]

lemma foldl_chunks_ids (stem base_url : Str) :
    ∀ (blocks : List Block) (st : ChunkState), ∃ m,
      ((blocks.foldl (processBlock stem base_url) st).chunks).map (fun c => c.id) =
        st.chunks.map (fun c => c.id) ++
          (List.range' st.chunks.length m).map (chunkId stem) := by
  intro blocks
  induction blocks with
  | nil => intro st; exact ⟨0, by simp⟩
  | cons b rest ih =>
    intro st
    rw [List.foldl_cons]
    rcases b with ⟨level, t⟩ | ⟨k, t⟩
    · obtain ⟨m, hm⟩ := ih (processBlock stem base_url st (.heading level t))
      refine ⟨m, ?_⟩
      rwa [processBlock_heading_chunks] at hm
    · by_cases hlen : 50 < (pyStrip t).length
      · obtain ⟨m, hm⟩ := ih (processBlock stem base_url st (.content k t))
        refine ⟨m + 1, ?_⟩
        rw [hm, processBlock_content_chunks, if_pos hlen]
        have hid : (emittedChunk stem base_url st (pyStrip t)).id =
            chunkId stem st.chunks.length := rfl
        simp [List.range'_succ, hid, List.length_append]
      · obtain ⟨m, hm⟩ := ih (processBlock stem base_url st (.content k t))
        refine ⟨m, ?_⟩
        rwa [processBlock_content_chunks, if_neg hlen] at hm

lemma process_markdown_file_ids (stem base_url : Str) (blocks : List Block) :
    ∃ m, (process_markdown_file stem base_url blocks).map (fun c => c.id) =
      (List.range' 0 m).map (chunkId stem) := by
  obtain ⟨m, hm⟩ := foldl_chunks_ids stem base_url blocks ⟨[], [], []⟩
  exact ⟨m, by simpa [process_markdown_file] using hm⟩

lemma process_markdown_file_ids_nodup (stem base_url : Str) (blocks : List Block) :
    ((process_markdown_file stem base_url blocks).map (fun c => c.id)).Nodup := by
  obtain ⟨m, hm⟩ := process_markdown_file_ids stem base_url blocks
  rw [hm]
  refine List.Nodup.map ?_ (List.nodup_range' 0 m)
  intro a b hab
  exact (chunkId_inj hab).2

lemma process_markdown_file_ids_mem (stem base_url : Str) (blocks : List Block)
    {i : Str} (hi : i ∈ (process_markdown_file stem base_url blocks).map (fun c => c.id)) :
    ∃ n, i = chunkId stem n := by
  obtain ⟨m, hm⟩ := process_markdown_file_ids stem base_url blocks
  rw [hm] at hi
  obtain ⟨n, _, rfl⟩ := List.mem_map.mp hi
  exact ⟨n, rfl⟩

lemma extract_documents_eq (files : List FileInput) :
    extract_documents files =
      ((okFiles files).map (fun t => process_markdown_file t.1 t.2.1 t.2.2)).flatten := by
  suffices h : ∀ (fs : List FileInput) (docs : List DocumentChunk),
      fs.foldl
        (fun docs f =>
          match f with
          | .error _ => docs
          | .ok (stem, base_url, blocks) =>
              let content := process_markdown_file stem base_url blocks
              if content.isEmpty then docs else docs ++ content)
        docs =
      docs ++ ((okFiles fs).map (fun t => process_markdown_file t.1 t.2.1 t.2.2)).flatten by
    simpa [extract_documents] using h files []
  intro fs
  induction fs with
  | nil => intro docs; simp [okFiles]
  | cons f rest ih =>
    intro docs
    rcases f with e | ⟨stem, base_url, blocks⟩
    · simpa [okFiles] using ih docs
    · have hok : okFiles (.ok (stem, base_url, blocks) :: rest) =
          (stem, base_url, blocks) :: okFiles rest := by
        simp [okFiles]
      by_cases hemp : (process_markdown_file stem base_url blocks).isEmpty = true
      · have hempty : process_markdown_file stem base_url blocks = [] :=
          List.isEmpty_iff.mp hemp
        simp only [List.foldl_cons]
        rw [if_pos hemp, ih docs, hok]
        simp [hempty]
      · simp only [List.foldl_cons]
        rw [if_neg hemp]
        rw [ih (docs ++ process_markdown_file stem base_url blocks), hok]
        simp [List.append_assoc]

lemma amendedSectionTag_eq (s : Str) : amendedSectionTag s = sectionTagOf (lowerStr s) := by
  unfold amendedSectionTag sectionTagOf
  induction lowerStr s with
  | nil => rfl
  | cons c t ih =>
    simp only [List.foldr_cons, List.filter_cons]
    by_cases hk : (isWordChar c || isPySpace c || decide (c = '-')) = true
    · conv_rhs => rw [if_pos hk, List.map_cons]
      by_cases hsp : c = ' '
      · subst hsp
        conv_lhs => rw [if_pos rfl]
        conv_rhs => rw [if_pos rfl]
        rw [ih]
      · conv_lhs => rw [if_neg hsp, if_pos hk]
        conv_rhs => rw [if_neg hsp]
        rw [ih]
    · have hsp : ¬ c = ' ' := fun h => by subst h; exact hk (by decide)
      conv_lhs => rw [if_neg hsp, if_neg hk]
      conv_rhs => rw [if_neg hk]
      exact ih

lemma no_pattern_tags_on_empty :
    (tag_patterns.filter (fun tp => tp.2.any (Pat.search (lowerStr [])))).map Prod.fst
      = [] := by decide

lemma extract_tags_empty_content (s : Str) :
    extract_tags [] s =
      if (amendedSectionTag s).isEmpty then [] else [amendedSectionTag s] := by
  rw [amendedSectionTag_eq]
  simp only [extract_tags, no_pattern_tags_on_empty]
  by_cases hs : (lowerStr s).isEmpty = true
  · have h0 : sectionTagOf (lowerStr s) = [] := by
      rw [List.isEmpty_iff.mp hs]; rfl
    simp [hs, h0]
  · by_cases ht : (sectionTagOf (lowerStr s)).isEmpty = true
    · simp [hs, ht, List.isEmpty_iff.mp ht]
    · simp [hs, ht]

lemma mono_comp_fold (relPath relStem stem base_url : Str) :
    ∀ (blocks : List Block) (st1 st2 : ChunkState),
      st1.current_section = st2.current_section →
      st1.current_subsection = st2.current_subsection →
      st1.chunks.map (fun c => (c.content, c.sec, c.subsec, c.url)) =
        st2.chunks.map (fun c => (c.content, c.sec, c.subsec, c.url)) →
      ((blocks.foldl (Mono.processBlock relPath relStem base_url) st1).chunks).map
          (fun c => (c.content, c.sec, c.subsec, c.url)) =
        ((blocks.foldl (processBlock stem base_url) st2).chunks).map
          (fun c => (c.content, c.sec, c.subsec, c.url)) := by
  intro blocks
  induction blocks with
  | nil => intro st1 st2 _ _ hch; simpa using hch
  | cons b rest ih =>
    intro st1 st2 hsec hsub hch
    rw [List.foldl_cons, List.foldl_cons]
    rcases b with ⟨level, t⟩ | ⟨k, t⟩
    · by_cases h1 : level ≤ 2
      · exact ih _ _ (by simp [Mono.processBlock, processBlock, h1])
          (by simp [Mono.processBlock, processBlock, h1])
          (by simpa [Mono.processBlock, processBlock, h1] using hch)
      · by_cases h2 : level ≤ 4
        · exact ih _ _ (by simpa [Mono.processBlock, processBlock, h1, h2] using hsec)
            (by simp [Mono.processBlock, processBlock, h1, h2])
            (by simpa [Mono.processBlock, processBlock, h1, h2] using hch)
        · exact ih _ _ (by simpa [Mono.processBlock, processBlock, h1, h2] using hsec)
            (by simpa [Mono.processBlock, processBlock, h1, h2] using hsub)
            (by simpa [Mono.processBlock, processBlock, h1, h2] using hch)
    · by_cases hlen : 50 < (pyStrip t).length
      · refine ih _ _ (by simpa [Mono.processBlock, processBlock, hlen] using hsec)
          (by simpa [Mono.processBlock, processBlock, hlen] using hsub) ?_
        simp only [Mono.processBlock, processBlock, hlen, if_pos, List.map_append]
        rw [hch]
        simp [emittedChunk, hsec, hsub]
      · exact ih _ _ (by simpa [Mono.processBlock, processBlock, hlen] using hsec)
          (by simpa [Mono.processBlock, processBlock, hlen] using hsub)
          (by simpa [Mono.processBlock, processBlock, hlen] using hch)

/-! ## Claim theorems -/

/-- C1: for every block of kind paragraph/preformatted/unordered-list/
ordered-list, the chunker emits exactly one chunk for that block if the
trimmed flattened text is strictly longer than 50 characters and none
otherwise; concretely a 50-character content block emits no chunk and a
51-character one emits one. -/
theorem claim_C1 :
    (∀ (stem base_url : Str) (st : ChunkState) (k : BlockKind) (t : Str),
        (processBlock stem base_url st (.content k t)).chunks.length =
          st.chunks.length + (if 50 < (pyStrip t).length then 1 else 0)) ∧
    process_markdown_file "f".data "u".data
        [.content .p (List.replicate 50 'a')] = [] ∧
    (process_markdown_file "f".data "u".data
        [.content .p (List.replicate 51 'a')]).length = 1 := by
  refine ⟨?_, by decide, by decide⟩
  intro stem base_url st k t
  rw [processBlock_content_chunks]
  by_cases h : 50 < (pyStrip t).length
  · simp [h]
  · simp [h]

/-- C2: the heading-tracking state machine — a level-1/2 heading sets
`current_section` to its trimmed text and resets `current_subsection`; a
level-3/4 heading sets only `current_subsection`; level-5/6 headings change
neither; every emitted chunk carries the current section/subsection values;
and on `[H1 "Intro", P(51 chars), H3 "Details", P(51 chars)]` the two chunks
carry `("Intro", "")` and `("Intro", "Details")`. -/
theorem claim_C2 :
    (∀ (stem base_url : Str) (st : ChunkState) (t : Str),
        processBlock stem base_url st (.heading 1 t) =
          { st with current_section := pyStrip t, current_subsection := [] }) ∧
    (∀ (stem base_url : Str) (st : ChunkState) (t : Str),
        processBlock stem base_url st (.heading 2 t) =
          { st with current_section := pyStrip t, current_subsection := [] }) ∧
    (∀ (stem base_url : Str) (st : ChunkState) (t : Str),
        processBlock stem base_url st (.heading 3 t) =
          { st with current_subsection := pyStrip t }) ∧
    (∀ (stem base_url : Str) (st : ChunkState) (t : Str),
        processBlock stem base_url st (.heading 4 t) =
          { st with current_subsection := pyStrip t }) ∧
    (∀ (stem base_url : Str) (st : ChunkState) (t : Str),
        processBlock stem base_url st (.heading 5 t) = st) ∧
    (∀ (stem base_url : Str) (st : ChunkState) (t : Str),
        processBlock stem base_url st (.heading 6 t) = st) ∧
    (∀ (stem base_url : Str) (st : ChunkState) (k : BlockKind) (t : Str),
        ((processBlock stem base_url st (.content k t)).chunks).map
            (fun c => (c.sec, c.subsec)) =
          st.chunks.map (fun c => (c.sec, c.subsec)) ++
            (if 50 < (pyStrip t).length then
              [(st.current_section, st.current_subsection)]
            else [])) ∧
    (process_markdown_file "f".data "u".data
        [.heading 1 "Intro".data, .content .p (List.replicate 51 'a'),
         .heading 3 "Details".data, .content .p (List.replicate 51 'b')]).map
        (fun c => (c.sec, c.subsec)) =
      [("Intro".data, ([] : Str)), ("Intro".data, "Details".data)] := by
  refine ⟨fun _ _ _ _ => rfl, fun _ _ _ _ => rfl, fun _ _ _ _ => rfl, fun _ _ _ _ => rfl,
    fun _ _ _ _ => rfl, fun _ _ _ _ => rfl, ?_, by decide⟩
  intro stem base_url st k t
  rw [processBlock_content_chunks]
  by_cases h : 50 < (pyStrip t).length
  · simp [h, emittedChunk]
  · simp [h]

/-- C3 (amended): chunk ids `"<file-stem>#<n>"` are pairwise distinct within
one extraction run provided the successfully processed files have pairwise
distinct stems; within a single file they are always distinct.  (As stated,
over an arbitrary source tree, the claim fails: two files with equal stems
collide — see the counterexample.) -/
theorem claim_C3 (files : List FileInput) (h : (okStems files).Nodup) :
    ((extract_documents files).map (fun c => c.id)).Nodup := by
  rw [extract_documents_eq, List.map_flatten, List.map_map, List.nodup_flatten]
  constructor
  · intro l hl
    rw [List.mem_map] at hl
    obtain ⟨t, _, rfl⟩ := hl
    exact process_markdown_file_ids_nodup t.1 t.2.1 t.2.2
  · have hp := List.pairwise_map.mp h
    rw [List.pairwise_map]
    refine hp.imp ?_
    intro t1 t2 hne i hi1 hi2
    obtain ⟨n1, rfl⟩ := process_markdown_file_ids_mem t1.1 t1.2.1 t1.2.2 hi1
    obtain ⟨n2, heq⟩ := process_markdown_file_ids_mem t2.1 t2.2.1 t2.2.2 hi2
    exact hne (chunkId_inj heq).1

/-- Witness for C3: a concrete two-file run with distinct stems, with the
hypothesis discharged by evaluation. -/
theorem claim_C3_witness :
    (okStems [Except.ok ("a".data, "u".data, [Block.content .p (List.replicate 51 'x')]),
              Except.ok ("b".data, "v".data, [Block.content .p (List.replicate 51 'y')])]).Nodup ∧
    ((extract_documents
        [Except.ok ("a".data, "u".data, [Block.content .p (List.replicate 51 'x')]),
         Except.ok ("b".data, "v".data, [Block.content .p (List.replicate 51 'y')])]).map
        (fun c => c.id)).Nodup :=
  ⟨by decide, claim_C3 _ (by decide)⟩

/-- Counterexample to C3 as stated: a run over a tree with two files of equal
stem `"x"` (distinct paths/urls), each contributing one chunk, emits the id
`"x#0"` twice — the ids are not pairwise distinct. -/
theorem claim_C3_counterexample :
    ¬ ((extract_documents
        [Except.ok ("x".data, "u".data, [Block.content .p (List.replicate 51 'z')]),
         Except.ok ("x".data, "v".data, [Block.content .p (List.replicate 51 'z')])]).map
        (fun c => c.id)).Nodup := by decide

/-- Counterexample to C4 as stated: for section `"A  B"` (two internal
spaces) the claimed transform (whitespace runs collapse to a single hyphen)
gives `"a-b"`, but the tag the code appends is `"a--b"` — each space becomes
its own hyphen. -/
theorem claim_C4_counterexample :
    claimSectionTag "A  B".data = "a-b".data ∧
    extract_tags [] "A  B".data = ["a--b".data] ∧
    "a-b".data ∉ extract_tags [] "A  B".data := by decide

/-- C4 (amended): the section-derived tag is computed by lower-casing,
stripping characters outside word-characters/whitespace/hyphen, and replacing
each space character with a hyphen (runs of k spaces give k hyphens); the tag
is skipped when this reduces to empty.  `"API Endpoints"` still yields
`"api-endpoints"` and `"Getting Started!"` yields `"getting-started"`. -/
theorem claim_C4 :
    (∀ s : Str, extract_tags [] s =
        if (amendedSectionTag s).isEmpty then [] else [amendedSectionTag s]) ∧
    extract_tags [] "API Endpoints".data = ["api-endpoints".data] ∧
    extract_tags [] "Getting Started!".data = ["getting-started".data] :=
  ⟨extract_tags_empty_content, by decide, by decide⟩

/-- C5: the collector is exactly the concatenation of the successfully
processed files' chunk sequences — a raising file contributes zero chunks and
does not abort the walk; concretely, one corrupt file between two valid ones
yields exactly the two valid files' chunks. -/
theorem claim_C5 :
    (∀ files : List FileInput,
        extract_documents files =
          ((okFiles files).map (fun t => process_markdown_file t.1 t.2.1 t.2.2)).flatten) ∧
    extract_documents
        [Except.ok ("a".data, "u".data, [Block.content .p (List.replicate 51 'x')]),
         Except.error "read failed".data,
         Except.ok ("b".data, "v".data, [Block.content .p (List.replicate 51 'y')])] =
      process_markdown_file "a".data "u".data [Block.content .p (List.replicate 51 'x')] ++
        process_markdown_file "b".data "v".data [Block.content .p (List.replicate 51 'y')] := by
  refine ⟨extract_documents_eq, ?_⟩
  rw [extract_documents_eq]
  simp [okFiles]

/-- C6: the get-by-id tool returns the `Document with ID '<id>' not found`
error both when the gateway's lookup finds the document absent and when the
underlying lookup raises any other exception; neither outcome propagates an
exception to the caller. -/
theorem claim_C6 :
    (∀ docId : Str, getByIdPipeline docId .missing = .error (notFoundMsg docId)) ∧
    (∀ (docId m : Str), getByIdPipeline docId (.failure m) = .error (notFoundMsg docId)) :=
  ⟨fun _ => rfl, fun _ _ => rfl⟩

/-- Counterexample to C7 as stated: when the Index Gateway's underlying search
call fails (here with message `"boom"`), the composed search tool returns the
ordinary empty result set `{query, total_results: 0, results: []}` — not the
`Search failed: <message>` error — because the Elasticsearch gateway
implementation catches the failure and returns an empty hit list. -/
theorem claim_C7_counterexample :
    searchPipeline "q".data (.failure "boom".data) =
      .ok "q".data 0 [] ∧
    searchPipeline "q".data (.failure "boom".data) ≠
      .error ("Search failed: boom".data) :=
  ⟨rfl, by decide⟩

/-- C7 (amended): the search tool maps an exception raised by the gateway call
itself to `{error: "Search failed: <message>"}`, but the repository's
Elasticsearch gateway never raises — it swallows a backend search failure and
returns an empty hit list, so a backend failure surfaces as an ordinary empty
result set. -/
theorem claim_C7 :
    (∀ (q e : Str), search_fastapi_docs q (.error e) =
        .error ("Search failed: ".data ++ e)) ∧
    (∀ (q m : Str), searchPipeline q (.failure m) = .ok q 0 []) :=
  ⟨fun _ _ => rfl, fun _ _ => rfl⟩

/-- C8: `extract_tags` is deterministic (same inputs give the same result),
its result never contains duplicate tags, and empty content with empty
section yields the empty set. -/
theorem claim_C8 :
    (∀ c s : Str, extract_tags c s = extract_tags c s) ∧
    (∀ c s : Str, (extract_tags c s).Nodup) ∧
    extract_tags [] [] = [] := by
  refine ⟨fun _ _ => rfl, ?_, by decide⟩
  intro c s
  exact List.nodup_dedup _

/-- C9 (amended): the monolithic and the component chunkers share block
selection and heading tracking — for every block sequence they emit chunks
for exactly the same blocks with identical content, section, subsection and
url — but they are not the same behaviour: their tag extractors differ and
their chunk ids differ (relative path vs file stem). -/
theorem claim_C9 (relPath relStem stem base_url : Str) (blocks : List Block) :
    (Mono.process_markdown_file relPath relStem base_url blocks).map
        (fun c => (c.content, c.sec, c.subsec, c.url)) =
      (process_markdown_file stem base_url blocks).map
        (fun c => (c.content, c.sec, c.subsec, c.url)) := by
  unfold Mono.process_markdown_file process_markdown_file
  exact mono_comp_fold relPath relStem stem base_url blocks ⟨[], [], []⟩ ⟨[], [], []⟩ rfl rfl rfl

/-- Counterexample to C9 as stated: on content `"middleware"` the component
tag extractor produces `["middleware"]` while the monolithic one produces
`[]` — the two implementations do not compute the same tag set. -/
theorem claim_C9_counterexample :
    Mono.extract_tags "middleware".data [] = [] ∧
    extract_tags "middleware".data [] = ["middleware".data] ∧
    Mono.extract_tags "middleware".data [] ≠ extract_tags "middleware".data [] := by decide

/-- C10: when collection succeeds with an empty document sequence, `load_data`
returns the `No documents found in repository` error without calling
`create_index` or `index_documents` — the destructive index recreate does not
happen on this path. -/
theorem claim_C10 (createIndex indexDocs : Except Str Unit) :
    load_data (.ok ()) (.ok []) createIndex indexDocs =
      (.error "No documents found in repository".data, ⟨false, false⟩) := rfl

end FastapiMcp
